import Mathlib

/-!
# Verification of the Chrono Divide bot squad/awareness core

A shallow embedding of the squad, awareness and combat-behaviour logic of the
`cd-api-playground` bot, together with theorems settling the specification's
claims about it.

Conventions used throughout:
* JavaScript numbers carrying tile coordinates are modelled as `ℤ` (tile
  coordinates `rx`/`ry` are integers); intermediate exact arithmetic uses `ℚ`
  and real-valued quantities (`Math.sqrt`, `Math.pow`) use `ℝ`.
* JavaScript truthiness of a nullable number (`!x`) is modelled by `jsTruthy`:
  `null`/`undefined` and `0` are falsy.
* JavaScript `Math.round` (round half toward +∞) is modelled by `jsRound`.
-/

namespace CDBot

/-- JS `Math.round`: rounds half up (toward +∞). -/
def jsRound (q : ℚ) : ℤ := ⌊q + 1 / 2⌋

/-- JS truthiness of a nullable number: `null` and `0` are falsy. -/
def jsTruthy : Option ℕ → Bool
  | none => false
  | some n => n != 0

/-- Source `getDistanceBetweenPoints` from `src/bot/logic/map/map.ts`.
Modelled from the spec: the implementation file is not among the provided
sources; the spec describes it as the true Euclidean distance between the two
points. -/
noncomputable def getDistanceBetweenPoints (a b : ℝ × ℝ) : ℝ :=
  Real.sqrt ((a.1 - b.1) ^ 2 + (a.2 - b.2) ^ 2)

/-- Euclidean distance between two integer tile positions (coordinates cast
to `ℝ`, matching the JS number arithmetic on tile coordinates). -/
noncomputable def tileDistance (a b : ℤ × ℤ) : ℝ :=
  getDistanceBetweenPoints ((a.1 : ℝ), (a.2 : ℝ)) ((b.1 : ℝ), (b.2 : ℝ))

/-! ## `src/bot/logic/squad/squad.ts` — `Squad` and `calculateCenterOfMass` -/

/-- Source `enum SquadLiveness { SquadDead, SquadActive }`. -/
inductive SquadLiveness where
  | SquadDead
  | SquadActive
  deriving DecidableEq, Repr

/-- Source `calculateCenterOfMass`: for a non-empty list of unit tiles, the
component-wise sum is accumulated by `reduce` from `{x: 0, y: 0}`, the center
is the JS-rounded mean, and the second component is `_.max` of the Euclidean
distances from each tile to that center (the `!` assertion is sound because
the list is non-empty; we model `_.max(..)!` by `(List.max?).getD 0`).
Returns `none` for the empty list. -/
noncomputable def calculateCenterOfMass (unitTiles : List (ℤ × ℤ)) :
    Option ((ℤ × ℤ) × ℝ) :=
  match unitTiles with
  | [] => none
  | _ =>
    let sums := unitTiles.foldl (fun s t => (s.1 + t.1, s.2 + t.2)) ((0, 0) : ℤ × ℤ)
    let centerOfMass : ℤ × ℤ :=
      (jsRound ((sums.1 : ℚ) / (unitTiles.length : ℚ)),
       jsRound ((sums.2 : ℚ) / (unitTiles.length : ℚ)))
    let distances := unitTiles.map (fun tile => tileDistance tile centerOfMass)
    some (centerOfMass, (distances.max?).getD 0)

/-- The mutable state of a `Squad` (membership, liveness, the `killable`
constructor flag). -/
structure Squad where
  unitIds : List ℕ
  liveness : SquadLiveness
  killable : Bool

/-- Source `Squad.updateLiveness`: prune unresolvable unit ids, then, if the squad is
killable and its membership is now empty, transition `SquadActive → SquadDead`.
`gameUnitExists` models `gameApi.getUnitData(unitId)` being non-null. -/
def updateLiveness (gameUnitExists : ℕ → Bool) (s : Squad) : Squad :=
  let unitIds := s.unitIds.filter gameUnitExists
  if s.killable && unitIds.isEmpty then
    if s.liveness = SquadLiveness.SquadActive then
      { s with unitIds := unitIds, liveness := SquadLiveness.SquadDead }
    else
      { s with unitIds := unitIds }
  else
    { s with unitIds := unitIds }

/-- Source `Squad.addUnit`: pushes the id onto the membership list. -/
def addUnit (s : Squad) (unitIdToAdd : ℕ) : Squad :=
  { s with unitIds := s.unitIds ++ [unitIdToAdd] }

/-- Source `Squad.removeUnit`: filters the id out of the membership list. -/
def removeUnit (s : Squad) (unitIdToRemove : ℕ) : Squad :=
  { s with unitIds := s.unitIds.filter (fun unitId => unitId != unitIdToRemove) }

/-- The cohesion-field update in `Squad.onAiUpdate`: from the movable members'
tiles, set `centerOfMass`/`maxDistanceToCenterOfMass` from
`calculateCenterOfMass`, or both to `null` when it returns `null`. -/
noncomputable def squadUpdateCohesion (movableUnitTiles : List (ℤ × ℤ)) :
    Option (ℤ × ℤ) × Option ℝ :=
  match calculateCenterOfMass movableUnitTiles with
  | some tileMetrics => (some tileMetrics.1, some tileMetrics.2)
  | none => (none, none)

/-! ## `src/bot/logic/awareness.ts` — `MatchAwarenessImpl` -/

/-- A quadtree entry (`Circle<number>` with `r = 1` and `data = unit id`);
units are inserted at their integer tile coordinates. -/
structure QTUnit where
  x : ℤ
  y : ℤ
  data : ℕ
  deriving DecidableEq, Repr

/-- Source `UnitPositionQuery = { x, y, unitId }`. -/
structure UnitPositionQuery where
  x : ℤ
  y : ℤ
  unitId : ℕ
  deriving DecidableEq, Repr

/-- The per-unit rules consumed by the core (`TechnoRules` slice). -/
structure TechnoRules where
  passengers : ℕ
  size : ℕ
  deriving DecidableEq, Repr

/-- The slice of `UnitData` consumed by the embedded code: id, tile position
and static rules. -/
structure UnitData where
  id : ℕ
  tile : ℤ × ℤ
  rules : TechnoRules
  deriving DecidableEq, Repr

/-- Source `rebuildQuadtree`: clear the tree, then insert every unit as a circle at
its tile with its id as payload; the resulting content is exactly the image of
the unit list. -/
def rebuildQuadtree (units : List UnitData) : List QTUnit :=
  units.map (fun unit => ⟨unit.tile.1, unit.tile.2, unit.id⟩)

/-- Source `MatchAwarenessImpl.getHostilesNearPoint`: the quadtree `retrieve` call
returns an over-approximating candidate list (modelled as an arbitrary list
`retrieved`); the result maps candidates to `UnitPositionQuery`, post-filters
by exact Euclidean distance ≤ radius, then drops falsy (zero) unit ids. -/
noncomputable def getHostilesNearPoint (retrieved : List QTUnit)
    (searchX searchY : ℝ) (radius : ℝ) : List UnitPositionQuery :=
  ((retrieved.map (fun c => ({ x := c.x, y := c.y, unitId := c.data } : UnitPositionQuery))).filter
      (fun q =>
        decide (getDistanceBetweenPoints ((q.x : ℝ), (q.y : ℝ)) (searchX, searchY) ≤ radius))).filter
    (fun q => q.unitId != 0)

/-- The `GlobalThreat` snapshot fields referenced by the awareness layer
(the `threat.ts` definition itself is external to the provided sources; the
field names are those used in `squad.ts`/`awareness.ts`). -/
structure GlobalThreat where
  totalAvailableAntiGroundFirepower : ℝ
  totalOffensiveLandThreat : ℝ
  totalDefensiveThreat : ℝ
  totalAvailableAirPower : ℝ
  totalOffensiveAntiAirThreat : ℝ
  totalOffensiveAirThreat : ℝ
  totalDefensivePower : ℝ
  totalAvailableAntiAirFirepower : ℝ

/-- Source `MatchAwarenessImpl.checkShouldAttack` (JS `Math.pow(x, 1.025)` modelled
by the real power `x ^ (1.025 : ℝ)`). -/
noncomputable def checkShouldAttack (threatCache : GlobalThreat) (threatFactor : ℝ) : Bool :=
  let scaledGroundPower := threatCache.totalAvailableAntiGroundFirepower ^ (1.025 : ℝ)
  let scaledGroundThreat :=
    (threatFactor * threatCache.totalOffensiveLandThreat + threatCache.totalDefensiveThreat) * 1.1
  let scaledAirPower := threatCache.totalAvailableAirPower ^ (1.025 : ℝ)
  let scaledAirThreat :=
    (threatFactor * threatCache.totalOffensiveAntiAirThreat + threatCache.totalDefensiveThreat) * 1.1
  decide (scaledGroundPower > scaledGroundThreat) || decide (scaledAirPower > scaledAirThreat)

/-- The formula the spec's hysteresis rule states, written from the spec's
words (note: the spec pairs the air power with `enemyOffensiveAirThreat`, i.e.
the snapshot's `totalOffensiveAirThreat` field). Used only to compare the
spec's wording against the source's `checkShouldAttack`. -/
noncomputable def checkShouldAttackSpec (threatCache : GlobalThreat) (factor : ℝ) : Bool :=
  let scaledGroundPower := threatCache.totalAvailableAntiGroundFirepower ^ (1.025 : ℝ)
  let scaledGroundThreat :=
    (factor * threatCache.totalOffensiveLandThreat + threatCache.totalDefensiveThreat) * 1.1
  let scaledAirPower := threatCache.totalAvailableAirPower ^ (1.025 : ℝ)
  let scaledAirThreat :=
    (factor * threatCache.totalOffensiveAirThreat + threatCache.totalDefensiveThreat) * 1.1
  decide (scaledGroundPower > scaledGroundThreat) || decide (scaledAirPower > scaledAirThreat)

/-- The game-length multiplier computed in `MatchAwarenessImpl.onAiUpdate`:
`Math.max(0, 1.0 - game.getCurrentTick() / (15 * 7200.0))` — the ticks-per-
second value `15` is a hard-coded constant in the source. -/
noncomputable def gameLengthFactor (tick : ℕ) : ℝ :=
  max 0 (1 - (tick : ℝ) / (15 * 7200))

/-- The game-length multiplier as the spec words it: `max(0, 1 − tick /
(tickRate × 7200))` with `tickRate` the world engine's current tick rate.
Used only to compare the spec's wording against the source. -/
noncomputable def gameLengthFactorSpec (tick tickRate : ℕ) : ℝ :=
  max 0 (1 - (tick : ℝ) / ((tickRate : ℝ) * 7200))

/-- The hysteresis evaluation of the attack/defend flag in
`MatchAwarenessImpl.onAiUpdate`: when currently defending the threat factor is
`1.25 × gameLengthFactor`, when currently attacking it is
`0.75 × gameLengthFactor`. -/
noncomputable def evaluateShouldAttack (threatCache : GlobalThreat)
    (currentShouldAttack : Bool) (tick : ℕ) : Bool :=
  if !currentShouldAttack then
    checkShouldAttack threatCache (1.25 * gameLengthFactor tick)
  else
    checkShouldAttack threatCache (0.75 * gameLengthFactor tick)

/-- The mutable state of `MatchAwarenessImpl` touched by its per-tick update. -/
structure AwarenessState where
  hostileQuadTree : List QTUnit
  threatCache : Option GlobalThreat
  shouldAttack : Bool
  mainRallyPoint : ℤ × ℤ

/-- Source `THREAT_UPDATE_INTERVAL_TICKS`. -/
def THREAT_UPDATE_INTERVAL_TICKS : ℕ := 30

/-- Source `RALLY_POINT_UPDATE_INTERVAL_TICKS`. -/
def RALLY_POINT_UPDATE_INTERVAL_TICKS : ℕ := 60

/-- Source `MatchAwarenessImpl.onAiUpdate`, shallowly embedded.  External
collaborators are passed as inputs:
* `hostileUnits` — the result of building the filtered hostile `UnitData`
  list inside the `try` block; an exception anywhere in the construction (or
  the rebuild) is an `Except.error`, in which case the `catch` branch logs
  `"caught error"` and leaves the previous quadtree in place;
* `visibility` — `sectorCache.getOverallVisibility()` (nullable; JS
  truthiness makes `0` falsy);
* `calculateGlobalThreat` — the external threat calculator's result;
* `rallyCalc` — the result of `getPointTowardsOtherPoint` for the rally
  update.
Returns the updated state together with the error log lines emitted. -/
noncomputable def awarenessOnAiUpdate (s : AwarenessState) (tick : ℕ)
    (hostileUnits : Except String (List UnitData))
    (visibility : Option ℝ)
    (calculateGlobalThreat : GlobalThreat)
    (rallyCalc : ℤ × ℤ) : AwarenessState × List String :=
  let rebuildOutcome : List QTUnit × List String :=
    match hostileUnits with
    | Except.ok units => (rebuildQuadtree units, [])
    | Except.error _ => (s.hostileQuadTree, ["caught error"])
  let threatOutcome : Option GlobalThreat × Bool :=
    if tick % THREAT_UPDATE_INTERVAL_TICKS = 0 then
      match visibility with
      | some v =>
        if v ≠ 0 then
          (some calculateGlobalThreat,
           evaluateShouldAttack calculateGlobalThreat s.shouldAttack tick)
        else (s.threatCache, s.shouldAttack)
      | none => (s.threatCache, s.shouldAttack)
    else (s.threatCache, s.shouldAttack)
  let mainRallyPoint :=
    if tick % RALLY_POINT_UPDATE_INTERVAL_TICKS = 0 then rallyCalc else s.mainRallyPoint
  ({ hostileQuadTree := rebuildOutcome.1,
     threatCache := threatOutcome.1,
     shouldAttack := threatOutcome.2,
     mainRallyPoint := mainRallyPoint }, rebuildOutcome.2)

/-! ## `combatSquad.ts` — `CombatSquad` behaviour state machine -/

/-- Source `TARGET_UPDATE_INTERVAL_TICKS`. -/
def TARGET_UPDATE_INTERVAL_TICKS : ℕ := 10

/-- Source `GRAB_INTERVAL_TICKS`. -/
def GRAB_INTERVAL_TICKS : ℕ := 10

/-- Source `GRAB_RADIUS`. -/
def GRAB_RADIUS : ℕ := 20

/-- Source `MIN_GATHER_RADIUS`. -/
def MIN_GATHER_RADIUS : ℕ := 5

/-- Source `MAX_GATHER_RADIUS`. -/
def MAX_GATHER_RADIUS : ℕ := 15

/-- Source `GATHER_RATIO`. -/
def GATHER_RATIO : ℕ := 10

/-- Source `enum SquadState { Gathering, Attacking }`. -/
inductive SquadState where
  | Gathering
  | Attacking
  deriving DecidableEq, Repr

/-- The mutable fields of `CombatSquad`. -/
structure CombatSquadState where
  lastGrab : Option ℕ
  lastCommand : Option ℕ
  state : SquadState
  deriving DecidableEq, Repr

/-- A command pushed onto the `ActionBatcher`: `manageMoveMicro(unit, point)`
or `manageAttackMicro(unit, target)` — the micro handlers themselves are
external collaborators (`common.ts`); we record which one was invoked for
which unit and argument. -/
inductive BatchedCommand where
  | moveMicro (unitId : ℕ) (point : ℤ × ℤ)
  | attackMicro (unitId : ℕ) (targetId : ℕ)
  deriving DecidableEq, Repr

/-- The `MissionAction` returned by the behaviour: `noop()` or
`grabCombatants(point, radius)`. -/
inductive MissionAction where
  | noop
  | grabCombatants (point : ℤ × ℤ) (radius : ℕ)
  deriving DecidableEq, Repr

/-- The inputs `CombatSquad.onAiUpdate` reads from its collaborators
(`gameApi`, `mission`, `matchAwareness`):
* `tick` — `gameApi.getCurrentTick()`;
* `unitIds` — `mission.getUnitIds()`;
* `centerOfMass`, `maxDistanceToCenterOfMass` — the mission squad's cohesion
  accessors;
* `units` — ids of `mission.getUnitsMatching(isSelectableCombatant)`;
* `groundUnitsLength` — length of the ground-movement-zone combatant list;
* `tileExists c` — whether `gameApi.mapApi.getTile(c.x, c.y) !== undefined`;
* `targetArea`, `rallyArea` — the behaviour's constructor fields (the
  `targetArea || playerData.startLocation` fallback never fires since
  `targetArea` is an always-truthy object);
* `bestTargetFor u` — the result of `maxBy` of `getAttackWeight` over the
  hostiles near `u` (external target-weighting collaborator). -/
structure CombatSquadArgs where
  tick : ℕ
  unitIds : List ℕ
  centerOfMass : Option (ℤ × ℤ)
  maxDistanceToCenterOfMass : Option ℝ
  units : List ℕ
  groundUnitsLength : ℕ
  tileExists : ℤ × ℤ → Bool
  targetArea : ℤ × ℤ
  rallyArea : ℤ × ℤ
  bestTargetFor : ℕ → Option ℕ

/-- Source `CombatSquad.onAiUpdate`, shallowly embedded.  Returns the updated
behaviour state, the commands pushed to the `ActionBatcher`, and the returned
`MissionAction`.  The throttled first block updates `lastCommand` and runs the
gather/attack state machine; the `Attacking → Gathering` revert returns
`noop()` immediately (skipping the reinforcement block); otherwise the
reinforcement block runs at the `GRAB_INTERVAL_TICKS` cadence. -/
noncomputable def combatSquadOnAiUpdate (cs : CombatSquadState) (a : CombatSquadArgs) :
    CombatSquadState × List BatchedCommand × MissionAction :=
  let firstBlock : CombatSquadState × List BatchedCommand × Option MissionAction :=
    if !a.unitIds.isEmpty &&
        (!jsTruthy cs.lastCommand ||
          decide (cs.lastCommand.getD 0 + TARGET_UPDATE_INTERVAL_TICKS < a.tick)) then
      let cs1 := { cs with lastCommand := some a.tick }
      match cs1.state with
      | SquadState.Gathering =>
        let requiredGatherRadius :=
          Real.sqrt (a.groundUnitsLength : ℝ) * ( GATHER_RATIO : ℝ) + (MIN_GATHER_RADIUS : ℝ)
        match a.centerOfMass, a.maxDistanceToCenterOfMass with
        | some centerOfMass, some maxDistance =>
          if maxDistance ≠ 0 ∧ a.tileExists centerOfMass = true ∧
              maxDistance > requiredGatherRadius then
            (cs1, a.units.map (fun unit => BatchedCommand.moveMicro unit centerOfMass), none)
          else
            ({ cs1 with state := SquadState.Attacking }, [], none)
        | _, _ => ({ cs1 with state := SquadState.Attacking }, [], none)
      | SquadState.Attacking =>
        let targetPoint := a.targetArea
        let requiredGatherRadius :=
          Real.sqrt (a.groundUnitsLength : ℝ) * ( GATHER_RATIO : ℝ) + (MAX_GATHER_RADIUS : ℝ)
        let attackCommands :=
          a.units.map (fun unit =>
            match a.bestTargetFor unit with
            | some bestUnit => BatchedCommand.attackMicro unit bestUnit
            | none => BatchedCommand.moveMicro unit targetPoint)
        match a.centerOfMass, a.maxDistanceToCenterOfMass with
        | some centerOfMass, some maxDistance =>
          if maxDistance ≠ 0 ∧ a.tileExists centerOfMass = true ∧
              maxDistance > requiredGatherRadius then
            ({ cs1 with state := SquadState.Gathering }, [], some MissionAction.noop)
          else
            (cs1, attackCommands, none)
        | _, _ => (cs1, attackCommands, none)
    else
      (cs, [], none)
  match firstBlock with
  | (cs1, commands, some earlyReturn) => (cs1, commands, earlyReturn)
  | (cs1, commands, none) =>
    if !jsTruthy cs1.lastGrab ||
        decide (cs1.lastGrab.getD 0 + GRAB_INTERVAL_TICKS < a.tick) then
      ({ cs1 with lastGrab := some a.tick }, commands,
        MissionAction.grabCombatants (a.centerOfMass.getD a.rallyArea) GRAB_RADIUS)
    else
      (cs1, commands, MissionAction.noop)

/-! ## `scriptStepHandlers.ts` — `LoadOntoTransportHandler` -/

/-- Source `ScriptStepResult`: `repeat`, `step` (advance), `disband` or `goToLine`. -/
inductive ScriptStepResult where
  | _repeat
  | step
  | disband
  | goToLine (line : ℤ)
  deriving DecidableEq, Repr

/-- Source `LOAD_TIME_LIMIT`. -/
def LOAD_TIME_LIMIT : ℕ := 300

/-- JS `Map.set` on an insertion-ordered association list when the key may
already be present: an existing entry keeps its position, a missing key is
not the use case here (the loop only re-sets existing keys). -/
def jsMapSet (l : List (ℕ × ℕ)) (k v : ℕ) : List (ℕ × ℕ) :=
  l.map (fun p => if p.1 = k then (k, v) else p)

/-- JS `Map.delete` on an insertion-ordered association list. -/
def jsMapDelete (l : List (ℕ × ℕ)) (k : ℕ) : List (ℕ × ℕ) :=
  l.filter (fun p => p.1 != k)

/-- The `while` loop of `LoadOntoTransportHandler.onStart`: `pop()` takes
units from the end of `transportedUnits` (so the loop processes the reversed
list front-to-back), finds the last remaining transport whose free slots fit
the unit (`filter(...).pop()` modelled by `getLast?`), records the assignment
in `transporteesToTransport` (here enriched with the unit record so sizes can
be stated; the source map stores `unit.id ↦ transportId`), decrements the
transport's free slots and deletes it when full. -/
def assignLoop : List UnitData → List (ℕ × ℕ) → List (UnitData × ℕ) →
    List (UnitData × ℕ) × List (ℕ × ℕ)
  | [], remainingSizes, acc => (acc, remainingSizes)
  | unit :: rest, remainingSizes, acc =>
    if remainingSizes.isEmpty then (acc, remainingSizes)
    else
      match (remainingSizes.filter (fun p => unit.rules.size ≤ p.2)).getLast? with
      | some fittingTransport =>
        let transportId := fittingTransport.1
        let slots := fittingTransport.2
        let acc1 := acc ++ [(unit, transportId)]
        let afterSet := jsMapSet remainingSizes transportId (slots - unit.rules.size)
        let remainingSizes1 :=
          if slots - unit.rules.size = 0 then jsMapDelete afterSet transportId else afterSet
        assignLoop rest remainingSizes1 acc1
      | none => assignLoop rest remainingSizes acc

/-- The state `LoadOntoTransportHandler.onStart` computes (we return the
enriched assignment list in place of the `transporteesToTransport` map). -/
structure LoadOntoTransportStart where
  transporters : List ℕ
  transporteesToTransport : List (UnitData × ℕ)
  remainingSizes : List (ℕ × ℕ)
  abortAt : ℕ

/-- Source `LoadOntoTransportHandler.onStart`: transports are the units with
positive passenger capacity; candidates for transport are the units with
positive size that are not themselves transports; the greedy loop above
assigns them; `abortAt` is the current tick plus `LOAD_TIME_LIMIT`. -/
def loadOntoTransportOnStart (allUnits : List UnitData) (tick : ℕ) :
    LoadOntoTransportStart :=
  let transportUnits := allUnits.filter (fun u => decide (0 < u.rules.passengers))
  let transporters := transportUnits.map (fun u => u.id)
  let remainingSizes := transportUnits.map (fun t => (t.id, t.rules.passengers))
  let transportedUnits :=
    allUnits.filter (fun u => decide (0 < u.rules.size) && !(transporters.contains u.id))
  let loopResult := assignLoop transportedUnits.reverse remainingSizes []
  { transporters := transporters,
    transporteesToTransport := loopResult.1,
    remainingSizes := loopResult.2,
    abortAt := tick + LOAD_TIME_LIMIT }

/-- Source `LoadOntoTransportHandler.onStep`: returns `step` (advance) when the
transporters were never computed or the (truthy) deadline has been exceeded;
otherwise re-issues an `EnterTransport` order per assigned passenger (the
`forEach` callback receives `(value, key)`, so each order is
`orderUnits([passengerId], EnterTransport, transportId)`) and repeats. -/
def loadOntoTransportOnStep (transporters : Option (List ℕ))
    (transporteesToTransport : List (ℕ × ℕ)) (abortAt : Option ℕ) (tick : ℕ) :
    ScriptStepResult × List (ℕ × ℕ) :=
  if transporters.isNone || (jsTruthy abortAt && decide (abortAt.getD 0 < tick)) then
    (ScriptStepResult.step, [])
  else
    (ScriptStepResult._repeat,
      transporteesToTransport.map (fun p => (p.1, p.2)))

/-- Total passenger size assigned to the transport `tid` by an assignment
list. -/
def assignedSizeTo (acc : List (UnitData × ℕ)) (tid : ℕ) : ℕ :=
  ((acc.filter (fun p => p.2 = tid)).map (fun p => p.1.rules.size)).sum

/-! ## Theorems -/

/-- Claim C6. For every squad, if the squad is killable and its membership
becomes empty during an update, its liveness transitions Active→Dead, it
remains Dead under every further update (adding members never changes
liveness and an update of a Dead squad leaves it Dead, so the transition
happens exactly once), and a non-killable squad's liveness is never changed
by an update regardless of empty membership. -/
theorem c6_squad_liveness (s : Squad) (gameUnitExists : ℕ → Bool) :
    (s.killable = true → (s.unitIds.filter gameUnitExists).isEmpty = true →
      s.liveness = SquadLiveness.SquadActive →
      (updateLiveness gameUnitExists s).liveness = SquadLiveness.SquadDead)
    ∧ (s.liveness = SquadLiveness.SquadDead →
      (updateLiveness gameUnitExists s).liveness = SquadLiveness.SquadDead)
    ∧ (∀ unitId, (addUnit s unitId).liveness = s.liveness)
    ∧ (s.killable = false →
      (updateLiveness gameUnitExists s).liveness = s.liveness) := by
  refine ⟨?_, ?_, fun unitId => rfl, ?_⟩
  · intro hk he ha
    simp [updateLiveness, hk, he, ha]
  · intro hd
    simp only [updateLiveness, hd]
    split
    · split <;> rfl
    · rfl
  · intro hk
    simp [updateLiveness, hk]

/-- Witness for C6 at concrete squads: a killable squad whose members all
become unresolvable dies; a dead squad stays dead; a non-killable empty
squad stays active. -/
theorem c6_squad_liveness_witness :
    (updateLiveness (fun _ => false)
      ⟨[1], SquadLiveness.SquadActive, true⟩).liveness = SquadLiveness.SquadDead
    ∧ (updateLiveness (fun _ => true)
      ⟨[], SquadLiveness.SquadDead, true⟩).liveness = SquadLiveness.SquadDead
    ∧ (updateLiveness (fun _ => true)
      ⟨[], SquadLiveness.SquadActive, false⟩).liveness = SquadLiveness.SquadActive :=
  ⟨(c6_squad_liveness ⟨[1], SquadLiveness.SquadActive, true⟩ (fun _ => false)).1
      rfl (by decide) rfl,
   (c6_squad_liveness ⟨[], SquadLiveness.SquadDead, true⟩ (fun _ => true)).2.1 rfl,
   (c6_squad_liveness ⟨[], SquadLiveness.SquadActive, false⟩ (fun _ => true)).2.2.2 rfl⟩

/-- Claim C3, counterexample. The claim computes the game-length factor from
the world engine's current tick rate; the source hard-codes 15 ticks per
second.  At tick 108000 with an engine tick rate of 30, the source's factor
is 0 while the claimed formula gives 1/2. -/
theorem c3_counterexample :
    gameLengthFactor 108000 ≠ gameLengthFactorSpec 108000 30 := by
  unfold gameLengthFactor gameLengthFactorSpec
  norm_num

/-- Claim C3, amended. At every hysteresis evaluation at tick t,
`gameLengthFactor = max(0, 1 − t / (15 × 7200))` with the ticks-per-second
value hard-coded as 15 (equal to the spec's formula exactly when the tick
rate is 15), and the factor applied to the enemy offensive threats is
`1.25 × gameLengthFactor` when the flag is currently defend, else
`0.75 × gameLengthFactor` when it is currently attack. -/
theorem c3_game_length_factor (tick : ℕ) (threatCache : GlobalThreat) :
    gameLengthFactor tick = max 0 (1 - (tick : ℝ) / ((15 : ℝ) * 7200))
    ∧ gameLengthFactor tick = gameLengthFactorSpec tick 15
    ∧ evaluateShouldAttack threatCache false tick
        = checkShouldAttack threatCache (1.25 * gameLengthFactor tick)
    ∧ evaluateShouldAttack threatCache true tick
        = checkShouldAttack threatCache (0.75 * gameLengthFactor tick) := by
  refine ⟨rfl, ?_, rfl, rfl⟩
  unfold gameLengthFactor gameLengthFactorSpec
  norm_num

/-- Claim C7. For every Awareness per-tick update in which constructing the
hostile unit set or rebuilding the spatial index throws, the failure is
caught and logged at the Awareness boundary, the tick's rebuild is skipped
with the previous tick's index retained unchanged, and the update never
aborts the tick: the threat snapshot, attack flag and rally point are
exactly what the same update computes on a successful construction. -/
theorem c7_rebuild_failure_graceful (s : AwarenessState) (tick : ℕ)
    (err : String) (units : List UnitData) (visibility : Option ℝ)
    (calculatedThreat : GlobalThreat) (rallyCalc : ℤ × ℤ) :
    (awarenessOnAiUpdate s tick (Except.error err) visibility calculatedThreat
        rallyCalc).1.hostileQuadTree = s.hostileQuadTree
    ∧ (awarenessOnAiUpdate s tick (Except.error err) visibility calculatedThreat
        rallyCalc).2 = ["caught error"]
    ∧ (awarenessOnAiUpdate s tick (Except.error err) visibility calculatedThreat
        rallyCalc).1.threatCache
      = (awarenessOnAiUpdate s tick (Except.ok units) visibility calculatedThreat
        rallyCalc).1.threatCache
    ∧ (awarenessOnAiUpdate s tick (Except.error err) visibility calculatedThreat
        rallyCalc).1.shouldAttack
      = (awarenessOnAiUpdate s tick (Except.ok units) visibility calculatedThreat
        rallyCalc).1.shouldAttack
    ∧ (awarenessOnAiUpdate s tick (Except.error err) visibility calculatedThreat
        rallyCalc).1.mainRallyPoint
      = (awarenessOnAiUpdate s tick (Except.ok units) visibility calculatedThreat
        rallyCalc).1.mainRallyPoint :=
  ⟨rfl, rfl, rfl, rfl, rfl⟩

/-- Claim C5. For every query point and radius r, the hostiles-near-point query
returns only entries whose true Euclidean distance from the query point is
≤ r, for every content of the underlying spatial index (the quadtree's
bounding-shape over-approximation `retrieved` is arbitrary here and always
post-filtered by exact distance). -/
theorem c5_radius_query_distance (retrieved : List QTUnit)
    (searchX searchY radius : ℝ) (q : UnitPositionQuery)
    (hq : q ∈ getHostilesNearPoint retrieved searchX searchY radius) :
    getDistanceBetweenPoints ((q.x : ℝ), (q.y : ℝ)) (searchX, searchY) ≤ radius := by
  unfold getHostilesNearPoint at hq
  simp only [List.mem_filter, List.mem_map, decide_eq_true_eq] at hq
  exact hq.1.2

/-- Witness for C5: a hostile sitting exactly at the query point is returned
and its distance (0) is within the radius 1. -/
theorem c5_radius_query_distance_witness :
    getDistanceBetweenPoints (((0 : ℤ) : ℝ), ((0 : ℤ) : ℝ)) ((0 : ℝ), (0 : ℝ)) ≤ (1 : ℝ) := by
  apply c5_radius_query_distance [⟨0, 0, 5⟩] 0 0 1 ⟨0, 0, 5⟩
  unfold getHostilesNearPoint
  simp only [List.mem_filter, List.mem_map, decide_eq_true_eq]
  refine ⟨⟨⟨⟨0, 0, 5⟩, by simp, rfl⟩, ?_⟩, by decide⟩
  unfold getDistanceBetweenPoints
  norm_num

/-- Claim C10. For every query point and radius, the hostiles-near-point query
never returns an entry whose unitId is 0 (the JS falsy-id filter): a hostile
inserted into the spatial index with id 0 is dropped from results even when
it lies within the query radius. -/
theorem c10_falsy_id_dropped (retrieved : List QTUnit)
    (searchX searchY radius : ℝ) (q : UnitPositionQuery)
    (hq : q ∈ getHostilesNearPoint retrieved searchX searchY radius) :
    q.unitId ≠ 0 := by
  unfold getHostilesNearPoint at hq
  simp only [List.mem_filter, bne_iff_ne, ne_eq] at hq
  exact hq.2

/-- Witness for C10: with an id-0 hostile and an id-7 hostile both at the
query point, the id-7 entry is returned (its id is nonzero by the theorem);
moreover the query in fact drops the id-0 entry entirely. -/
theorem c10_falsy_id_dropped_witness :
    (⟨0, 0, 7⟩ : UnitPositionQuery).unitId ≠ 0 := by
  apply c10_falsy_id_dropped [⟨0, 0, 0⟩, ⟨0, 0, 7⟩] 0 0 1 ⟨0, 0, 7⟩
  unfold getHostilesNearPoint
  simp only [List.mem_filter, List.mem_map, decide_eq_true_eq]
  refine ⟨⟨⟨⟨0, 0, 7⟩, by simp, rfl⟩, ?_⟩, by decide⟩
  unfold getDistanceBetweenPoints
  norm_num

/-- Lower bound: `x ^ 1.025` is at least `x` for bases ≥ 1. -/
lemma le_rpow_1025 {x : ℝ} (hx : 1 ≤ x) : x ≤ x ^ (1.025 : ℝ) := by
  have h := Real.rpow_le_rpow_of_exponent_le hx (by norm_num : (1 : ℝ) ≤ 1.025)
  rwa [Real.rpow_one] at h

/-- Upper bound: `x ^ 1.025` is at most `x ^ 2` for bases ≥ 1. -/
lemma rpow_1025_le_sq {x : ℝ} (hx : 1 ≤ x) : x ^ (1.025 : ℝ) ≤ x ^ (2 : ℕ) := by
  have h := Real.rpow_le_rpow_of_exponent_le hx (by norm_num : (1.025 : ℝ) ≤ 2)
  rwa [show ((2 : ℝ)) = ((2 : ℕ) : ℝ) by norm_num, Real.rpow_natCast] at h

/-- Claim C1, counterexample. The claim pairs the self air power with
`enemyOffensiveAirThreat`; the source's `checkShouldAttack` uses the
snapshot's `totalOffensiveAntiAirThreat` field.  With
`totalOffensiveAirThreat = 0` but `totalOffensiveAntiAirThreat = 1000`
(air power 10, ground power 0, land threat 100), the flag stays false at the
hysteresis evaluation while the claimed formula is true. -/
theorem c1_counterexample :
    evaluateShouldAttack ⟨0, 100, 0, 10, 1000, 0, 0, 0⟩ false 0 = false
    ∧ checkShouldAttackSpec ⟨0, 100, 0, 10, 1000, 0, 0, 0⟩
        (1.25 * gameLengthFactor 0) = true := by
  have hglf : gameLengthFactor 0 = 1 := by
    unfold gameLengthFactor; norm_num
  constructor
  · show checkShouldAttack ⟨0, 100, 0, 10, 1000, 0, 0, 0⟩ (1.25 * gameLengthFactor 0) = false
    rw [hglf]
    unfold checkShouldAttack
    simp only [Bool.or_eq_false_iff, decide_eq_false_iff_not, not_lt]
    constructor
    · rw [Real.zero_rpow (by norm_num)]
      norm_num
    · have h := rpow_1025_le_sq (by norm_num : (1 : ℝ) ≤ 10)
      calc (10 : ℝ) ^ (1.025 : ℝ) ≤ 10 ^ (2 : ℕ) := h
        _ ≤ (1.25 * 1 * 1000 + 0) * 1.1 := by norm_num
  · unfold checkShouldAttackSpec
    simp only [Bool.or_eq_true, decide_eq_true_eq]
    right
    rw [hglf]
    have h := Real.rpow_pos_of_pos (by norm_num : (0 : ℝ) < 10) (1.025 : ℝ)
    calc ((1.25 : ℝ) * 1 * 0 + 0) * 1.1 = 0 := by norm_num
      _ < (10 : ℝ) ^ (1.025 : ℝ) := h

/-- Claim C1, amended. At every hysteresis evaluation, given the threat
snapshot and the chosen factor f, the attack/defend flag is set to true iff
`selfAntiGroundPower^1.025 > (f × enemyOffensiveLandThreat +
enemyDefensiveThreat) × 1.1` OR `selfAirPower^1.025 >
(f × enemyOffensiveAntiAirThreat + enemyDefensiveThreat) × 1.1` (the
*anti-air* offensive threat, not the air threat); in particular, for
`selfAntiGroundPower = 100`, `enemyOffensiveLandThreat = 50`,
`enemyDefensiveThreat = 0`, currently defending, `gameLengthFactor = 1`
(tick 0, so f = 1.25), the flag becomes true. -/
theorem c1_attack_flag_formula (threatCache : GlobalThreat) (f : ℝ) :
    (checkShouldAttack threatCache f = true ↔
      (threatCache.totalAvailableAntiGroundFirepower ^ (1.025 : ℝ) >
          (f * threatCache.totalOffensiveLandThreat
            + threatCache.totalDefensiveThreat) * 1.1
        ∨ threatCache.totalAvailableAirPower ^ (1.025 : ℝ) >
          (f * threatCache.totalOffensiveAntiAirThreat
            + threatCache.totalDefensiveThreat) * 1.1))
    ∧ evaluateShouldAttack ⟨100, 50, 0, 0, 0, 0, 0, 0⟩ false 0 = true := by
  constructor
  · unfold checkShouldAttack
    simp [decide_eq_true_eq]
  · show checkShouldAttack ⟨100, 50, 0, 0, 0, 0, 0, 0⟩ (1.25 * gameLengthFactor 0) = true
    have hglf : gameLengthFactor 0 = 1 := by
      unfold gameLengthFactor; norm_num
    rw [hglf]
    unfold checkShouldAttack
    simp only [Bool.or_eq_true, decide_eq_true_eq]
    left
    have h := le_rpow_1025 (by norm_num : (1 : ℝ) ≤ 100)
    calc ((1.25 : ℝ) * 1 * 50 + 0) * 1.1 < 100 := by norm_num
      _ ≤ (100 : ℝ) ^ (1.025 : ℝ) := h

/-- The component-wise pair fold used by `calculateCenterOfMass` computes the
component-wise sums. -/
lemma foldl_pair_sum (l : List (ℤ × ℤ)) (init : ℤ × ℤ) :
    l.foldl (fun s t => (s.1 + t.1, s.2 + t.2)) init
      = (init.1 + (l.map Prod.fst).sum, init.2 + (l.map Prod.snd).sum) := by
  induction l generalizing init with
  | nil => simp
  | cons t rest ih => simp [List.foldl_cons, ih, add_assoc]

/-- A non-empty list of reals has a `max?` that is a member and an upper
bound. -/
lemma max?_spec_of_ne_nil (ds : List ℝ) (hne : ds ≠ []) :
    ∃ m, ds.max? = some m ∧ m ∈ ds ∧ ∀ b ∈ ds, b ≤ m := by
  cases h : ds.max? with
  | none => rw [List.max?_eq_none_iff] at h; exact absurd h hne
  | some m =>
    exact ⟨m, rfl, List.max?_mem (fun a b => max_choice a b) h,
      (List.max?_le_iff (fun a b c => max_le_iff) h).1 le_rfl⟩

/-- Claim C4. For every finite set of member tile positions used for cohesion,
the cohesion center equals the component-wise arithmetic mean rounded to the
position grid (JS `Math.round`), the spread equals the maximum Euclidean
distance from any of those positions to that rounded center, and for the
empty set both center and spread are null for that tick. -/
theorem c4_cohesion_center_spread (l : List (ℤ × ℤ)) (hne : l ≠ []) :
    squadUpdateCohesion [] = (none, none)
    ∧ ∃ c m, squadUpdateCohesion l = (some c, some m)
        ∧ c = (jsRound (((l.map Prod.fst).sum : ℚ) / (l.length : ℚ)),
               jsRound (((l.map Prod.snd).sum : ℚ) / (l.length : ℚ)))
        ∧ (∀ t ∈ l, tileDistance t c ≤ m)
        ∧ (∃ t ∈ l, tileDistance t c = m) := by
  refine ⟨rfl, ?_⟩
  obtain ⟨t0, rest, rfl⟩ := List.exists_cons_of_ne_nil hne
  set L := t0 :: rest with hL
  set c : ℤ × ℤ :=
    (jsRound (((L.map Prod.fst).sum : ℚ) / (L.length : ℚ)),
     jsRound (((L.map Prod.snd).sum : ℚ) / (L.length : ℚ))) with hc
  set ds := L.map (fun tile => tileDistance tile c) with hds
  have hdsne : ds ≠ [] := by simp [hds, hL]
  obtain ⟨m, hm, hmem, hub⟩ := max?_spec_of_ne_nil ds hdsne
  have hcalc : calculateCenterOfMass L = some (c, m) := by
    rw [hL]
    simp only [calculateCenterOfMass, foldl_pair_sum]
    rw [← hL]
    simp only [zero_add, ← hc, ← hds, hm, Option.getD_some]
  refine ⟨c, m, ?_, rfl, ?_, ?_⟩
  · simp only [squadUpdateCohesion, hcalc]
  · intro t ht
    exact hub _ (by rw [hds]; exact List.mem_map_of_mem _ ht)
  · rw [hds] at hmem
    obtain ⟨t, ht, hteq⟩ := List.mem_map.1 hmem
    exact ⟨t, ht, hteq⟩

/-- Witness for C4 at the spec's end-to-end example: positions
(0,0), (2,0), (4,0) give center (2,0) and a spread that bounds all member
distances and is attained. -/
theorem c4_cohesion_center_spread_witness :
    squadUpdateCohesion [] = (none, none)
    ∧ ∃ c m, squadUpdateCohesion [((0 : ℤ), (0 : ℤ)), (2, 0), (4, 0)] = (some c, some m)
        ∧ c = (jsRound ((([((0 : ℤ), (0 : ℤ)), (2, 0), (4, 0)].map Prod.fst).sum : ℚ)
                / (([((0 : ℤ), (0 : ℤ)), (2, 0), (4, 0)].length : ℚ))),
               jsRound ((([((0 : ℤ), (0 : ℤ)), (2, 0), (4, 0)].map Prod.snd).sum : ℚ)
                / (([((0 : ℤ), (0 : ℤ)), (2, 0), (4, 0)].length : ℚ))))
        ∧ (∀ t ∈ [((0 : ℤ), (0 : ℤ)), (2, 0), (4, 0)], tileDistance t c ≤ m)
        ∧ (∃ t ∈ [((0 : ℤ), (0 : ℤ)), (2, 0), (4, 0)], tileDistance t c = m) :=
  c4_cohesion_center_spread [((0 : ℤ), (0 : ℤ)), (2, 0), (4, 0)] (by simp)

/-- Appending one assignment adds that unit's size to its transport's total
and nothing to any other transport's total. -/
lemma assignedSizeTo_append (acc : List (UnitData × ℕ)) (u : UnitData) (t0 tid : ℕ) :
    assignedSizeTo (acc ++ [(u, t0)]) tid
      = assignedSizeTo acc tid + (if t0 = tid then u.rules.size else 0) := by
  unfold assignedSizeTo
  rw [List.filter_append]
  by_cases h : t0 = tid <;> simp [h]

/-- Source `jsMapSet` leaves the key sequence unchanged. -/
lemma jsMapSet_keys (l : List (ℕ × ℕ)) (k v : ℕ) :
    (jsMapSet l k v).map Prod.fst = l.map Prod.fst := by
  unfold jsMapSet
  rw [List.map_map]
  apply List.map_congr_left
  intro p _
  by_cases h : p.1 = k <;> simp [h]

/-- Membership in `jsMapSet`: either the freshly written entry (for a key
already present) or an unchanged entry with a different key. -/
lemma mem_jsMapSet {l : List (ℕ × ℕ)} {k v : ℕ} {p : ℕ × ℕ}
    (hp : p ∈ jsMapSet l k v) :
    (p = (k, v) ∧ ∃ s, (k, s) ∈ l) ∨ (p.1 ≠ k ∧ p ∈ l) := by
  unfold jsMapSet at hp
  obtain ⟨q, hq, hqe⟩ := List.mem_map.1 hp
  by_cases h : q.1 = k
  · left
    rw [if_pos h] at hqe
    exact ⟨hqe.symm, q.2, by rw [← h]; exact hq⟩
  · right
    rw [if_neg h] at hqe
    rw [← hqe]
    exact ⟨h, hq⟩

/-- The image of an entry of `l` under the `jsMapSet` rewrite is in the
result. -/
lemma jsMapSet_mem_image {l : List (ℕ × ℕ)} {p : ℕ × ℕ} (hp : p ∈ l) (k v : ℕ) :
    (if p.1 = k then (k, v) else p) ∈ jsMapSet l k v :=
  List.mem_map_of_mem _ hp

/-- Membership in `jsMapDelete`. -/
lemma mem_jsMapDelete (l : List (ℕ × ℕ)) (k : ℕ) (p : ℕ × ℕ) :
    p ∈ jsMapDelete l k ↔ p ∈ l ∧ p.1 ≠ k := by
  unfold jsMapDelete
  simp [List.mem_filter]

/-- In a list with nodup keys, a key determines its value. -/
lemma nodup_keys_val_unique {l : List (ℕ × ℕ)} (hnd : (l.map Prod.fst).Nodup)
    {k a b : ℕ} (ha : (k, a) ∈ l) (hb : (k, b) ∈ l) : a = b := by
  induction l with
  | nil => cases ha
  | cons p rest ih =>
    simp only [List.map_cons, List.nodup_cons] at hnd
    rcases List.mem_cons.1 ha with ha1 | ha2 <;> rcases List.mem_cons.1 hb with hb1 | hb2
    · rw [← ha1] at hb1; exact (Prod.mk.injEq _ _ _ _ ▸ hb1).2.symm
    · exfalso
      apply hnd.1
      have hpk : p.1 = k := by rw [← ha1]
      rw [hpk]
      exact List.mem_map_of_mem Prod.fst hb2
    · exfalso
      apply hnd.1
      have hpk : p.1 = k := by rw [← hb1]
      rw [hpk]
      exact List.mem_map_of_mem Prod.fst ha2
    · exact ih hnd.2 ha2 hb2

/-- Capacity invariant of the greedy assignment loop: if every remaining
transport's free slots plus its already-assigned size fit its capacity, and
every transport no longer remaining already fits, then every transport fits
after the loop finishes. -/
lemma assignLoop_capacity (cap : ℕ → ℕ) (units : List UnitData) :
    ∀ (remaining : List (ℕ × ℕ)) (acc : List (UnitData × ℕ)),
    (remaining.map Prod.fst).Nodup →
    (∀ p ∈ remaining, p.2 + assignedSizeTo acc p.1 ≤ cap p.1) →
    (∀ tid, (∀ p ∈ remaining, p.1 ≠ tid) → assignedSizeTo acc tid ≤ cap tid) →
    ∀ tid, assignedSizeTo (assignLoop units remaining acc).1 tid ≤ cap tid := by
  induction units with
  | nil =>
    intro remaining acc hnd h1 h2 tid
    simp only [assignLoop]
    by_cases h : ∃ p ∈ remaining, p.1 = tid
    · obtain ⟨p, hp, hpe⟩ := h
      have := h1 p hp
      rw [hpe] at this
      omega
    · push_neg at h
      exact h2 tid h
  | cons u rest ih =>
    intro remaining acc hnd h1 h2 tid
    simp only [assignLoop]
    split
    · next hemp =>
      refine h2 tid (fun p hp => ?_)
      rw [List.isEmpty_iff.1 hemp] at hp
      cases hp
    · next hnemp =>
      cases hfit : (remaining.filter (fun p => decide (u.rules.size ≤ p.2))).getLast? with
      | none =>
        simp only [hfit]
        exact ih remaining acc hnd h1 h2 tid
      | some ft =>
        obtain ⟨tid0, slots⟩ := ft
        simp only [hfit]
        have hmem0 : (tid0, slots) ∈ remaining ∧ u.rules.size ≤ slots := by
          have hmf := List.mem_of_getLast?_eq_some hfit
          rw [List.mem_filter] at hmf
          exact ⟨hmf.1, by simpa using hmf.2⟩
        have hS : ∀ t, assignedSizeTo (acc ++ [(u, tid0)]) t
            = assignedSizeTo acc t + (if tid0 = t then u.rules.size else 0) :=
          fun t => assignedSizeTo_append acc u tid0 t
      -- the two shapes of the updated remaining map
        by_cases hz : slots - u.rules.size = 0
        · -- transport filled exactly: entry deleted
          rw [if_pos hz]
          apply ih
          · refine List.Nodup.sublist ?_ hnd
            rw [← jsMapSet_keys remaining tid0 (slots - u.rules.size)]
            exact List.Sublist.map _ (List.filter_sublist _)
          · intro p hp
            rw [mem_jsMapDelete] at hp
            rcases mem_jsMapSet hp.1 with ⟨hpe, _⟩ | ⟨hpk, hpl⟩
            · exact absurd (by rw [hpe]) hp.2
            · rw [hS, if_neg (fun he => hpk he.symm), add_zero]
              exact h1 p hpl
          · intro t ht
            by_cases htid : t = tid0
            · subst htid
              rw [hS, if_pos rfl]
              have h1p : slots + assignedSizeTo acc t ≤ cap t := h1 (t, slots) hmem0.1
              have := hmem0.2
              omega
            · rw [hS, if_neg (fun he => htid he.symm), add_zero]
              refine h2 t (fun p hp => ?_)
              by_cases hpk : p.1 = tid0
              · rw [hpk]
                exact fun he => htid he.symm
              · have himg : p ∈ jsMapSet remaining tid0 (slots - u.rules.size) := by
                  have := jsMapSet_mem_image hp tid0 (slots - u.rules.size)
                  rwa [if_neg hpk] at this
                exact ht p ((mem_jsMapDelete _ _ _).2 ⟨himg, hpk⟩)
        · -- transport keeps a positive remainder: entry updated in place
          rw [if_neg hz]
          apply ih
          · rw [jsMapSet_keys]
            exact hnd
          · intro p hp
            rcases mem_jsMapSet hp with ⟨hpe, _⟩ | ⟨hpk, hpl⟩
            · rw [hpe]
              show (slots - u.rules.size)
                  + assignedSizeTo (acc ++ [(u, tid0)]) tid0 ≤ cap tid0
              rw [hS, if_pos rfl]
              have h1p : slots + assignedSizeTo acc tid0 ≤ cap tid0 :=
                h1 (tid0, slots) hmem0.1
              have := hmem0.2
              omega
            · rw [hS, if_neg (fun he => hpk he.symm), add_zero]
              exact h1 p hpl
          · intro t ht
            have ht0 : tid0 ≠ t := by
              obtain ⟨s, hs⟩ : ∃ s, (tid0, s) ∈ remaining := ⟨slots, hmem0.1⟩
              have := jsMapSet_mem_image hs tid0 (slots - u.rules.size)
              rw [if_pos rfl] at this
              exact ht _ this
            rw [hS, if_neg ht0, add_zero]
            refine h2 t (fun p hp => ?_)
            by_cases hpk : p.1 = tid0
            · rw [hpk]
              exact ht0
            · have himg : p ∈ jsMapSet remaining tid0 (slots - u.rules.size) := by
                have := jsMapSet_mem_image hp tid0 (slots - u.rules.size)
                rwa [if_neg hpk] at this
              exact ht p himg

/-- Each candidate passenger is processed (and hence assigned) at most once
by the greedy loop: the assignment's unit ids stay duplicate-free. -/
lemma assignLoop_assigned_nodup (units : List UnitData) :
    ∀ (remaining : List (ℕ × ℕ)) (acc : List (UnitData × ℕ)),
    ((acc.map (fun p => p.1.id)) ++ units.map (fun u => u.id)).Nodup →
    ((assignLoop units remaining acc).1.map (fun p => p.1.id)).Nodup := by
  induction units with
  | nil =>
    intro remaining acc h
    simp only [assignLoop]
    exact (by simpa using h : (acc.map (fun p => p.1.id)).Nodup)
  | cons u rest ih =>
    intro remaining acc h
    have hsub : ((acc.map (fun p => p.1.id)) ++ rest.map (fun u => u.id)).Nodup := by
      refine List.Nodup.sublist ?_ h
      exact List.Sublist.append_left (List.sublist_cons_self _ _) _
    simp only [assignLoop]
    split
    · exact List.Nodup.sublist (List.sublist_append_left _ _) hsub
    · cases hfit : (remaining.filter (fun p => decide (u.rules.size ≤ p.2))).getLast? with
      | none =>
        simp only [hfit]
        exact ih remaining acc hsub
      | some ft =>
        obtain ⟨tid0, slots⟩ := ft
        simp only [hfit]
        apply ih
        simpa [List.append_assoc] using h

/-- In a list of units with duplicate-free ids, `find?` by a unit's id finds
that unit. -/
lemma find?_eq_of_nodup_ids (l : List UnitData) (t : UnitData) (ht : t ∈ l)
    (hnd : (l.map (fun u => u.id)).Nodup) :
    l.find? (fun u => u.id == t.id) = some t := by
  induction l with
  | nil => cases ht
  | cons u rest ih =>
    simp only [List.map_cons, List.nodup_cons] at hnd
    rcases List.mem_cons.1 ht with rfl | hrest
    · rw [List.find?_cons_of_pos _ (by simp)]
    · have hne : u.id ≠ t.id :=
        fun he => hnd.1 (he ▸ List.mem_map_of_mem (fun u => u.id) hrest)
      rw [List.find?_cons_of_neg _ (by simp [hne])]
      exact ih hrest hnd.2

/-- Claim C8. For every set of transports with capacities `[c1..ck]` and
passengers with sizes `[s1..sn]`, the transport-loading step's assignment
gives each transport a set of passengers whose sizes sum to at most its
capacity, each passenger is assigned to at most one transport, and once the
current tick exceeds the step's deadline tick the step returns advance
(`step`) even if unassigned passengers remain. -/
theorem c8_transport_loading (allUnits : List UnitData) (tick laterTick : ℕ)
    (hnodup : (allUnits.map (fun u => u.id)).Nodup)
    (hdeadline : tick + LOAD_TIME_LIMIT < laterTick) :
    (∀ t ∈ allUnits.filter (fun u => decide (0 < u.rules.passengers)),
        assignedSizeTo
          (loadOntoTransportOnStart allUnits tick).transporteesToTransport t.id
          ≤ t.rules.passengers)
    ∧ ((loadOntoTransportOnStart allUnits tick).transporteesToTransport.map
        (fun p => p.1.id)).Nodup
    ∧ loadOntoTransportOnStep
        (some (loadOntoTransportOnStart allUnits tick).transporters)
        ((loadOntoTransportOnStart allUnits tick).transporteesToTransport.map
          (fun p => (p.1.id, p.2)))
        (some (loadOntoTransportOnStart allUnits tick).abortAt) laterTick
      = (ScriptStepResult.step, []) := by
  have htundup :
      ((allUnits.filter (fun u => decide (0 < u.rules.passengers))).map
        (fun u => u.id)).Nodup :=
    List.Nodup.sublist (List.Sublist.map _ (List.filter_sublist _)) hnodup
  refine ⟨?_, ?_, ?_⟩
  · intro t ht
    have hcap :
        (((allUnits.filter (fun u => decide (0 < u.rules.passengers))).find?
            (fun u => u.id == t.id)).map (fun u => u.rules.passengers)).getD 0
          = t.rules.passengers := by
      rw [find?_eq_of_nodup_ids _ t ht htundup]
      rfl
    rw [← hcap]
    apply assignLoop_capacity
      (fun tid =>
        (((allUnits.filter (fun u => decide (0 < u.rules.passengers))).find?
            (fun u => u.id == tid)).map (fun u => u.rules.passengers)).getD 0)
    · show (((allUnits.filter (fun u => decide (0 < u.rules.passengers))).map
          (fun t => (t.id, t.rules.passengers))).map Prod.fst).Nodup
      rw [List.map_map]
      exact htundup
    · intro p hp
      obtain ⟨t', ht', hte⟩ := List.mem_map.1 hp
      rw [← hte]
      show t'.rules.passengers + assignedSizeTo [] t'.id ≤ _
      have : assignedSizeTo [] t'.id = 0 := rfl
      rw [this, add_zero, find?_eq_of_nodup_ids _ t' ht' htundup]
      exact le_refl _
    · intro tid _
      show assignedSizeTo [] tid ≤ _
      exact Nat.zero_le _
  · apply assignLoop_assigned_nodup
    have : ((allUnits.filter (fun u =>
          decide (0 < u.rules.size)
            && !(((allUnits.filter (fun u => decide (0 < u.rules.passengers))).map
                  (fun u => u.id)).contains u.id))).map (fun u => u.id)).Nodup :=
      List.Nodup.sublist (List.Sublist.map _ (List.filter_sublist _)) hnodup
    simpa [List.map_reverse, List.nodup_reverse] using this
  · have habort : (loadOntoTransportOnStart allUnits tick).abortAt
        = tick + LOAD_TIME_LIMIT := rfl
    unfold loadOntoTransportOnStep
    rw [if_pos]
    simp only [Bool.or_eq_true, Bool.and_eq_true, jsTruthy, habort]
    right
    refine ⟨by simp [LOAD_TIME_LIMIT], ?_⟩
    simpa using hdeadline

/-- Witness for C8 at a concrete mission: one transport (id 1, capacity 2)
and one passenger (id 2, size 1); the assignment respects the capacity and
at tick 301 (> deadline 300) the step advances. -/
theorem c8_transport_loading_witness :
    (∀ t ∈ [(⟨1, (0, 0), ⟨2, 0⟩⟩ : UnitData), ⟨2, (0, 0), ⟨0, 1⟩⟩].filter
          (fun u => decide (0 < u.rules.passengers)),
        assignedSizeTo
          (loadOntoTransportOnStart
            [⟨1, (0, 0), ⟨2, 0⟩⟩, ⟨2, (0, 0), ⟨0, 1⟩⟩] 0).transporteesToTransport t.id
          ≤ t.rules.passengers)
    ∧ ((loadOntoTransportOnStart
          [(⟨1, (0, 0), ⟨2, 0⟩⟩ : UnitData), ⟨2, (0, 0), ⟨0, 1⟩⟩] 0).transporteesToTransport.map
        (fun p => p.1.id)).Nodup
    ∧ loadOntoTransportOnStep
        (some (loadOntoTransportOnStart
          [(⟨1, (0, 0), ⟨2, 0⟩⟩ : UnitData), ⟨2, (0, 0), ⟨0, 1⟩⟩] 0).transporters)
        ((loadOntoTransportOnStart
          [(⟨1, (0, 0), ⟨2, 0⟩⟩ : UnitData), ⟨2, (0, 0), ⟨0, 1⟩⟩] 0).transporteesToTransport.map
          (fun p => (p.1.id, p.2)))
        (some (loadOntoTransportOnStart
          [(⟨1, (0, 0), ⟨2, 0⟩⟩ : UnitData), ⟨2, (0, 0), ⟨0, 1⟩⟩] 0).abortAt) 301
      = (ScriptStepResult.step, []) :=
  c8_transport_loading [⟨1, (0, 0), ⟨2, 0⟩⟩, ⟨2, (0, 0), ⟨0, 1⟩⟩] 0 301
    (by decide) (by decide)

/-- Claim C2, counterexample. The claim says state transitions are computed
only when cohesion is defined; but a squad in `Gathering` whose cohesion is
undefined (`centerOfMass = null`, here because no member can move) switches
to `Attacking` on that very evaluation. -/
theorem c2_counterexample :
    (combatSquadOnAiUpdate ⟨none, none, SquadState.Gathering⟩
      { tick := 0, unitIds := [1], centerOfMass := none,
        maxDistanceToCenterOfMass := none, units := [1], groundUnitsLength := 0,
        tileExists := fun _ => true, targetArea := (0, 0), rallyArea := (0, 0),
        bestTargetFor := fun _ => none }).1.state = SquadState.Attacking := rfl

/-- Claim C9, counterexample. The claim says the reinforcement request happens
independently of the gather/attack evaluation's outcome; but when the
evaluation reverts `Attacking → Gathering` the behaviour returns `noop()`
immediately, skipping a due reinforcement grab (`lastGrab` is not even
updated). -/
theorem c9_counterexample :
    (combatSquadOnAiUpdate ⟨none, none, SquadState.Attacking⟩
      { tick := 0, unitIds := [1], centerOfMass := some (0, 0),
        maxDistanceToCenterOfMass := some 1000, units := [1],
        groundUnitsLength := 0, tileExists := fun _ => true,
        targetArea := (0, 0), rallyArea := (0, 0),
        bestTargetFor := fun _ => none }).2.2 = MissionAction.noop
    ∧ (combatSquadOnAiUpdate ⟨none, none, SquadState.Attacking⟩
      { tick := 0, unitIds := [1], centerOfMass := some (0, 0),
        maxDistanceToCenterOfMass := some 1000, units := [1],
        groundUnitsLength := 0, tileExists := fun _ => true,
        targetArea := (0, 0), rallyArea := (0, 0),
        bestTargetFor := fun _ => none }).1.lastGrab = none := by
  have hrev : combatSquadOnAiUpdate ⟨none, none, SquadState.Attacking⟩
      { tick := 0, unitIds := [1], centerOfMass := some (0, 0),
        maxDistanceToCenterOfMass := some 1000, units := [1],
        groundUnitsLength := 0, tileExists := fun _ => true,
        targetArea := (0, 0), rallyArea := (0, 0),
        bestTargetFor := fun _ => none }
      = (⟨none, some 0, SquadState.Gathering⟩, [], MissionAction.noop) := by
    simp only [combatSquadOnAiUpdate]
    rw [if_pos]
    · rw [if_pos]
      refine ⟨by norm_num, trivial, ?_⟩
      rw [Nat.cast_zero, Real.sqrt_zero]
      norm_num [ GATHER_RATIO, MAX_GATHER_RADIUS]
    · rfl
  rw [hrev]
  exact ⟨rfl, rfl⟩

/-- Claim C2, amended. At each throttled evaluation of the combat squad
behaviour (non-empty membership, `TARGET_UPDATE_INTERVAL` elapsed or no prior
command), with n = `groundUnitsLength`: in Gathering, if cohesion is defined
with nonzero spread, the center tile exists, and spread >
`sqrt(n)·GATHER_RATIO + MIN_GATHER_RADIUS`, the state stays Gathering and
every combatant member is ordered to move toward the center; in *every*
other case — spread ≤ threshold, but also undefined cohesion, zero spread or
a missing center tile — the state becomes Attacking with no move orders.  In
Attacking, if cohesion is defined with nonzero spread, the center tile
exists, and spread > `sqrt(n)·GATHER_RATIO + MAX_GATHER_RADIUS`, the state
reverts to Gathering and that evaluation issues no orders (returning noop);
otherwise it stays Attacking. -/
theorem c2_state_machine (cs : CombatSquadState) (a : CombatSquadArgs)
    (hids : a.unitIds ≠ [])
    (hdue : jsTruthy cs.lastCommand = false
      ∨ cs.lastCommand.getD 0 + TARGET_UPDATE_INTERVAL_TICKS < a.tick) :
    (cs.state = SquadState.Gathering →
      (∀ c d, a.centerOfMass = some c → a.maxDistanceToCenterOfMass = some d →
        d ≠ 0 → a.tileExists c = true →
        d > Real.sqrt (a.groundUnitsLength : ℝ) * ( GATHER_RATIO : ℝ)
            + (MIN_GATHER_RADIUS : ℝ) →
        (combatSquadOnAiUpdate cs a).1.state = SquadState.Gathering
        ∧ (combatSquadOnAiUpdate cs a).2.1
            = a.units.map (fun unit => BatchedCommand.moveMicro unit c))
      ∧ (¬ (∃ c d, a.centerOfMass = some c ∧ a.maxDistanceToCenterOfMass = some d
            ∧ d ≠ 0 ∧ a.tileExists c = true
            ∧ d > Real.sqrt (a.groundUnitsLength : ℝ) * ( GATHER_RATIO : ℝ)
                + (MIN_GATHER_RADIUS : ℝ)) →
        (combatSquadOnAiUpdate cs a).1.state = SquadState.Attacking
        ∧ (combatSquadOnAiUpdate cs a).2.1 = []))
    ∧ (cs.state = SquadState.Attacking →
      (∀ c d, a.centerOfMass = some c → a.maxDistanceToCenterOfMass = some d →
        d ≠ 0 → a.tileExists c = true →
        d > Real.sqrt (a.groundUnitsLength : ℝ) * ( GATHER_RATIO : ℝ)
            + (MAX_GATHER_RADIUS : ℝ) →
        (combatSquadOnAiUpdate cs a).1.state = SquadState.Gathering
        ∧ (combatSquadOnAiUpdate cs a).2.1 = []
        ∧ (combatSquadOnAiUpdate cs a).2.2 = MissionAction.noop)
      ∧ (¬ (∃ c d, a.centerOfMass = some c ∧ a.maxDistanceToCenterOfMass = some d
            ∧ d ≠ 0 ∧ a.tileExists c = true
            ∧ d > Real.sqrt (a.groundUnitsLength : ℝ) * ( GATHER_RATIO : ℝ)
                + (MAX_GATHER_RADIUS : ℝ)) →
        (combatSquadOnAiUpdate cs a).1.state = SquadState.Attacking)) := by
  have hempty : a.unitIds.isEmpty = false := by
    cases h : a.unitIds.isEmpty
    · rfl
    · exact absurd (List.isEmpty_iff.1 h) hids
  have hdue2 : (!jsTruthy cs.lastCommand
      || decide (cs.lastCommand.getD 0 + TARGET_UPDATE_INTERVAL_TICKS < a.tick)) = true := by
    rcases hdue with h | h
    · rw [h]; rfl
    · simp [h]
  refine ⟨fun hstate => ⟨?_, ?_⟩, fun hstate => ⟨?_, ?_⟩⟩
  · intro c d hc hd hdne htile hgt
    have hcond : (d ≠ 0 ∧ a.tileExists c = true
        ∧ d > Real.sqrt (a.groundUnitsLength : ℝ) * ( GATHER_RATIO : ℝ)
            + (MIN_GATHER_RADIUS : ℝ)) ↔ True :=
      iff_true_intro ⟨hdne, htile, hgt⟩
    simp only [combatSquadOnAiUpdate, hempty, hdue2, hstate, hc, hd, hcond,
      Bool.not_false, Bool.and_self, Bool.true_and, if_true, ite_true,
      eq_self_iff_true]
    split <;> exact ⟨rfl, rfl⟩
  · intro hnex
    rcases hcm : a.centerOfMass with _ | c <;>
      rcases hmd : a.maxDistanceToCenterOfMass with _ | d
    · simp only [combatSquadOnAiUpdate, hempty, hdue2, hstate, hcm, hmd,
        Bool.not_false, Bool.and_self, Bool.true_and, if_true, ite_true,
        eq_self_iff_true]
      split <;> exact ⟨rfl, rfl⟩
    · simp only [combatSquadOnAiUpdate, hempty, hdue2, hstate, hcm, hmd,
        Bool.not_false, Bool.and_self, Bool.true_and, if_true, ite_true,
        eq_self_iff_true]
      split <;> exact ⟨rfl, rfl⟩
    · simp only [combatSquadOnAiUpdate, hempty, hdue2, hstate, hcm, hmd,
        Bool.not_false, Bool.and_self, Bool.true_and, if_true, ite_true,
        eq_self_iff_true]
      split <;> exact ⟨rfl, rfl⟩
    · have hcond : (d ≠ 0 ∧ a.tileExists c = true
          ∧ d > Real.sqrt (a.groundUnitsLength : ℝ) * ( GATHER_RATIO : ℝ)
              + (MIN_GATHER_RADIUS : ℝ)) ↔ False :=
        iff_false_intro (fun h => hnex ⟨c, d, hcm, hmd, h.1, h.2.1, h.2.2⟩)
      simp only [combatSquadOnAiUpdate, hempty, hdue2, hstate, hcm, hmd, hcond,
        Bool.not_false, Bool.and_self, Bool.true_and, if_true, ite_true,
        if_false, ite_false, eq_self_iff_true]
      split <;> exact ⟨rfl, rfl⟩
  · intro c d hc hd hdne htile hgt
    have hcond : (d ≠ 0 ∧ a.tileExists c = true
        ∧ d > Real.sqrt (a.groundUnitsLength : ℝ) * ( GATHER_RATIO : ℝ)
            + (MAX_GATHER_RADIUS : ℝ)) ↔ True :=
      iff_true_intro ⟨hdne, htile, hgt⟩
    simp only [combatSquadOnAiUpdate, hempty, hdue2, hstate, hc, hd, hcond,
      Bool.not_false, Bool.and_self, Bool.true_and, if_true, ite_true,
      eq_self_iff_true]
    exact ⟨trivial, trivial, trivial⟩
  · intro hnex
    rcases hcm : a.centerOfMass with _ | c <;>
      rcases hmd : a.maxDistanceToCenterOfMass with _ | d
    · simp only [combatSquadOnAiUpdate, hempty, hdue2, hstate, hcm, hmd,
        Bool.not_false, Bool.and_self, Bool.true_and, if_true, ite_true,
        eq_self_iff_true]
      split <;> rfl
    · simp only [combatSquadOnAiUpdate, hempty, hdue2, hstate, hcm, hmd,
        Bool.not_false, Bool.and_self, Bool.true_and, if_true, ite_true,
        eq_self_iff_true]
      split <;> rfl
    · simp only [combatSquadOnAiUpdate, hempty, hdue2, hstate, hcm, hmd,
        Bool.not_false, Bool.and_self, Bool.true_and, if_true, ite_true,
        eq_self_iff_true]
      split <;> rfl
    · have hcond : (d ≠ 0 ∧ a.tileExists c = true
          ∧ d > Real.sqrt (a.groundUnitsLength : ℝ) * ( GATHER_RATIO : ℝ)
              + (MAX_GATHER_RADIUS : ℝ)) ↔ False :=
        iff_false_intro (fun h => hnex ⟨c, d, hcm, hmd, h.1, h.2.1, h.2.2⟩)
      simp only [combatSquadOnAiUpdate, hempty, hdue2, hstate, hcm, hmd, hcond,
        Bool.not_false, Bool.and_self, Bool.true_and, if_true, ite_true,
        if_false, ite_false, eq_self_iff_true]
      split <;> rfl

/-- Witness for C2 at the spec's end-to-end example: 3 ground units, spread 2
≤ `sqrt(3)·10 + 5`, so a gathering squad switches to Attacking on this
evaluation (with no move orders). -/
theorem c2_state_machine_witness :
    (combatSquadOnAiUpdate ⟨none, none, SquadState.Gathering⟩
      { tick := 0, unitIds := [1], centerOfMass := some (2, 0),
        maxDistanceToCenterOfMass := some 2, units := [1], groundUnitsLength := 3,
        tileExists := fun _ => true, targetArea := (0, 0), rallyArea := (0, 0),
        bestTargetFor := fun _ => none }).1.state = SquadState.Attacking
    ∧ (combatSquadOnAiUpdate ⟨none, none, SquadState.Gathering⟩
      { tick := 0, unitIds := [1], centerOfMass := some (2, 0),
        maxDistanceToCenterOfMass := some 2, units := [1], groundUnitsLength := 3,
        tileExists := fun _ => true, targetArea := (0, 0), rallyArea := (0, 0),
        bestTargetFor := fun _ => none }).2.1 = [] :=
  ((c2_state_machine ⟨none, none, SquadState.Gathering⟩
      { tick := 0, unitIds := [1], centerOfMass := some (2, 0),
        maxDistanceToCenterOfMass := some 2, units := [1], groundUnitsLength := 3,
        tileExists := fun _ => true, targetArea := (0, 0), rallyArea := (0, 0),
        bestTargetFor := fun _ => none }
      (by simp) (Or.inl rfl)).1 rfl).2
    (by
      rintro ⟨c, d, hc, hd, hdne, htile, hgt⟩
      obtain rfl : (2 : ℝ) = d := Option.some.inj hd
      have h0 : (0 : ℝ) ≤ Real.sqrt ((3 : ℕ) : ℝ) := Real.sqrt_nonneg _
      have h10 : (( GATHER_RATIO : ℕ) : ℝ) = 10 := by norm_num [ GATHER_RATIO]
      have h5 : ((MIN_GATHER_RADIUS : ℕ) : ℝ) = 5 := by norm_num [MIN_GATHER_RADIUS]
      rw [h10, h5] at hgt
      linarith)

/-- Claim C9, amended. For every combat squad behaviour update at a tick more
than GRAB_INTERVAL ticks after the last grab (or with no prior, truthy,
grab tick), the behaviour requests reinforcement of eligible unassigned
combatants within the fixed grab radius of the squad's center (or of its
rally point when the center is undefined) — *except* when the same update's
throttled evaluation reverts Attacking → Gathering, in which case the update
returns `noop` immediately and the reinforcement request is skipped. -/
theorem c9_grab_cadence (cs : CombatSquadState) (a : CombatSquadArgs)
    (hgrab : jsTruthy cs.lastGrab = false
      ∨ cs.lastGrab.getD 0 + GRAB_INTERVAL_TICKS < a.tick) :
    (¬ ((a.unitIds ≠ [] ∧ (jsTruthy cs.lastCommand = false
          ∨ cs.lastCommand.getD 0 + TARGET_UPDATE_INTERVAL_TICKS < a.tick))
        ∧ cs.state = SquadState.Attacking
        ∧ ∃ c d, a.centerOfMass = some c ∧ a.maxDistanceToCenterOfMass = some d
            ∧ d ≠ 0 ∧ a.tileExists c = true
            ∧ d > Real.sqrt (a.groundUnitsLength : ℝ) * ( GATHER_RATIO : ℝ)
                + (MAX_GATHER_RADIUS : ℝ)) →
      (combatSquadOnAiUpdate cs a).2.2
          = MissionAction.grabCombatants (a.centerOfMass.getD a.rallyArea) GRAB_RADIUS
        ∧ (combatSquadOnAiUpdate cs a).1.lastGrab = some a.tick)
    ∧ (((a.unitIds ≠ [] ∧ (jsTruthy cs.lastCommand = false
          ∨ cs.lastCommand.getD 0 + TARGET_UPDATE_INTERVAL_TICKS < a.tick))
        ∧ cs.state = SquadState.Attacking
        ∧ ∃ c d, a.centerOfMass = some c ∧ a.maxDistanceToCenterOfMass = some d
            ∧ d ≠ 0 ∧ a.tileExists c = true
            ∧ d > Real.sqrt (a.groundUnitsLength : ℝ) * ( GATHER_RATIO : ℝ)
                + (MAX_GATHER_RADIUS : ℝ)) →
      (combatSquadOnAiUpdate cs a).2.2 = MissionAction.noop) := by
  have hgrab2 : (!jsTruthy cs.lastGrab
      || decide (cs.lastGrab.getD 0 + GRAB_INTERVAL_TICKS < a.tick)) = true := by
    rcases hgrab with h | h
    · rw [h]; rfl
    · simp [h]
  constructor
  · intro hnorev
    by_cases hthr : a.unitIds ≠ [] ∧ (jsTruthy cs.lastCommand = false
        ∨ cs.lastCommand.getD 0 + TARGET_UPDATE_INTERVAL_TICKS < a.tick)
    · -- the throttled evaluation runs but does not revert
      have hempty : a.unitIds.isEmpty = false := by
        cases h : a.unitIds.isEmpty
        · rfl
        · exact absurd (List.isEmpty_iff.1 h) hthr.1
      have hdue2 : (!jsTruthy cs.lastCommand
          || decide (cs.lastCommand.getD 0
              + TARGET_UPDATE_INTERVAL_TICKS < a.tick)) = true := by
        rcases hthr.2 with h | h
        · rw [h]; rfl
        · simp [h]
      cases hstate : cs.state
      · -- Gathering never early-returns
        rcases hcm : a.centerOfMass with _ | c <;>
          rcases hmd : a.maxDistanceToCenterOfMass with _ | d
        · simp only [combatSquadOnAiUpdate, hempty, hdue2, hstate, hcm, hmd,
            hgrab2, Bool.not_false, Bool.and_self, Bool.true_and, if_true,
            ite_true, eq_self_iff_true, Option.getD_none, Option.getD_some]
          exact ⟨trivial, trivial⟩
        · simp only [combatSquadOnAiUpdate, hempty, hdue2, hstate, hcm, hmd,
            hgrab2, Bool.not_false, Bool.and_self, Bool.true_and, if_true,
            ite_true, eq_self_iff_true, Option.getD_none, Option.getD_some]
          exact ⟨trivial, trivial⟩
        · simp only [combatSquadOnAiUpdate, hempty, hdue2, hstate, hcm, hmd,
            hgrab2, Bool.not_false, Bool.and_self, Bool.true_and, if_true,
            ite_true, eq_self_iff_true, Option.getD_none, Option.getD_some]
          exact ⟨trivial, trivial⟩
        · by_cases hcond : d ≠ 0 ∧ a.tileExists c = true
              ∧ d > Real.sqrt (a.groundUnitsLength : ℝ) * ( GATHER_RATIO : ℝ)
                  + (MIN_GATHER_RADIUS : ℝ)
          · simp only [combatSquadOnAiUpdate, hempty, hdue2, hstate, hcm, hmd,
              hgrab2, iff_true_intro hcond, Bool.not_false, Bool.and_self,
              Bool.true_and, if_true, ite_true, eq_self_iff_true,
              Option.getD_none, Option.getD_some]
            exact ⟨trivial, trivial⟩
          · simp only [combatSquadOnAiUpdate, hempty, hdue2, hstate, hcm, hmd,
              hgrab2, iff_false_intro hcond, Bool.not_false, Bool.and_self,
              Bool.true_and, if_true, ite_true, if_false, ite_false,
              eq_self_iff_true, Option.getD_none, Option.getD_some]
            exact ⟨trivial, trivial⟩
      · -- Attacking without the revert condition
        have hnex : ¬ (∃ c d, a.centerOfMass = some c
            ∧ a.maxDistanceToCenterOfMass = some d
            ∧ d ≠ 0 ∧ a.tileExists c = true
            ∧ d > Real.sqrt (a.groundUnitsLength : ℝ) * ( GATHER_RATIO : ℝ)
                + (MAX_GATHER_RADIUS : ℝ)) :=
          fun hex => hnorev ⟨hthr, hstate, hex⟩
        rcases hcm : a.centerOfMass with _ | c <;>
          rcases hmd : a.maxDistanceToCenterOfMass with _ | d
        · simp only [combatSquadOnAiUpdate, hempty, hdue2, hstate, hcm, hmd,
            hgrab2, Bool.not_false, Bool.and_self, Bool.true_and, if_true,
            ite_true, eq_self_iff_true, Option.getD_none, Option.getD_some]
          exact ⟨trivial, trivial⟩
        · simp only [combatSquadOnAiUpdate, hempty, hdue2, hstate, hcm, hmd,
            hgrab2, Bool.not_false, Bool.and_self, Bool.true_and, if_true,
            ite_true, eq_self_iff_true, Option.getD_none, Option.getD_some]
          exact ⟨trivial, trivial⟩
        · simp only [combatSquadOnAiUpdate, hempty, hdue2, hstate, hcm, hmd,
            hgrab2, Bool.not_false, Bool.and_self, Bool.true_and, if_true,
            ite_true, eq_self_iff_true, Option.getD_none, Option.getD_some]
          exact ⟨trivial, trivial⟩
        · have hcond : ¬ (d ≠ 0 ∧ a.tileExists c = true
              ∧ d > Real.sqrt (a.groundUnitsLength : ℝ) * ( GATHER_RATIO : ℝ)
                  + (MAX_GATHER_RADIUS : ℝ)) :=
            fun h => hnex ⟨c, d, hcm, hmd, h.1, h.2.1, h.2.2⟩
          simp only [combatSquadOnAiUpdate, hempty, hdue2, hstate, hcm, hmd,
            hgrab2, iff_false_intro hcond, Bool.not_false, Bool.and_self,
            Bool.true_and, if_true, ite_true, if_false, ite_false,
            eq_self_iff_true, Option.getD_none, Option.getD_some]
          exact ⟨trivial, trivial⟩
    · -- the throttled evaluation is skipped entirely
      have hthrBool : (!a.unitIds.isEmpty
          && (!jsTruthy cs.lastCommand
            || decide (cs.lastCommand.getD 0
                + TARGET_UPDATE_INTERVAL_TICKS < a.tick))) = false := by
        rw [not_and_or] at hthr
        rcases hthr with h | h
        · push_neg at h
          rw [List.isEmpty_iff.2 h]
          rfl
        · push_neg at h
          have h1 : jsTruthy cs.lastCommand = true := by
            cases hb : jsTruthy cs.lastCommand
            · exact absurd hb h.1
            · rfl
          rw [h1]
          simp [Nat.not_lt.2 h.2]
      simp only [combatSquadOnAiUpdate, hthrBool, hgrab2, Bool.false_eq_true,
        if_false, ite_false, if_true, ite_true, eq_self_iff_true,
        Option.getD_none, Option.getD_some]
      exact ⟨trivial, trivial⟩
  · rintro ⟨⟨hids, hdue⟩, hstate, c, d, hcm, hmd, hdne, htile, hgt⟩
    have hempty : a.unitIds.isEmpty = false := by
      cases h : a.unitIds.isEmpty
      · rfl
      · exact absurd (List.isEmpty_iff.1 h) hids
    have hdue2 : (!jsTruthy cs.lastCommand
        || decide (cs.lastCommand.getD 0
            + TARGET_UPDATE_INTERVAL_TICKS < a.tick)) = true := by
      rcases hdue with h | h
      · rw [h]; rfl
      · simp [h]
    have hcond : (d ≠ 0 ∧ a.tileExists c = true
        ∧ d > Real.sqrt (a.groundUnitsLength : ℝ) * ( GATHER_RATIO : ℝ)
            + (MAX_GATHER_RADIUS : ℝ)) ↔ True :=
      iff_true_intro ⟨hdne, htile, hgt⟩
    simp only [combatSquadOnAiUpdate, hempty, hdue2, hstate, hcm, hmd, hcond,
      Bool.not_false, Bool.and_self, Bool.true_and, if_true, ite_true,
      eq_self_iff_true]

/-- Witness for C9: a gathering squad with no prior grab issues a
reinforcement grab at its rally point (center undefined) with
`GRAB_RADIUS`, recording the grab tick. -/
theorem c9_grab_cadence_witness :
    (combatSquadOnAiUpdate ⟨none, none, SquadState.Gathering⟩
      { tick := 5, unitIds := [], centerOfMass := none,
        maxDistanceToCenterOfMass := none, units := [], groundUnitsLength := 0,
        tileExists := fun _ => true, targetArea := (0, 0), rallyArea := (3, 4),
        bestTargetFor := fun _ => none }).2.2
      = MissionAction.grabCombatants
          ((none : Option (ℤ × ℤ)).getD (3, 4)) GRAB_RADIUS
    ∧ (combatSquadOnAiUpdate ⟨none, none, SquadState.Gathering⟩
      { tick := 5, unitIds := [], centerOfMass := none,
        maxDistanceToCenterOfMass := none, units := [], groundUnitsLength := 0,
        tileExists := fun _ => true, targetArea := (0, 0), rallyArea := (3, 4),
        bestTargetFor := fun _ => none }).1.lastGrab = some 5 :=
  (c9_grab_cadence ⟨none, none, SquadState.Gathering⟩
      { tick := 5, unitIds := [], centerOfMass := none,
        maxDistanceToCenterOfMass := none, units := [], groundUnitsLength := 0,
        tileExists := fun _ => true, targetArea := (0, 0), rallyArea := (3, 4),
        bestTargetFor := fun _ => none }
      (Or.inl rfl)).1
    (fun h => absurd rfl h.1.1)

end CDBot
